import Mathlib

/-!
Verification of the AAMVA barcode codec and cross-validation engine
(`generateAAMVAString`, `ELEMENT_MAP`, `parseAAMVARaw`, `validateBarcode`
from `src/services/pdfService.ts`).

Strings are modelled as lists of characters (`Str`); every JavaScript
string operation used by the source (trim, split, replace of whitespace
runs, `padStart`, regex tests) is embedded as an executable Lean
function over `Str`.
-/

set_option maxRecDepth 100000

abbrev Str := List Char

/-- JavaScript whitespace (the ASCII part of `\s`, and what `trim` removes). -/
def isJsWS (c : Char) : Bool :=
  c = ' ' || c = '\t' || c = '\n' || c = '\r' || c = '\x0b' || c = '\x0c'

/-- Remove leading whitespace (left half of `String.prototype.trim`). -/
def trimLeft : Str → Str
  | [] => []
  | c :: cs => if isJsWS c then trimLeft cs else c :: cs

/-- Remove trailing whitespace. -/
def trimRight (s : Str) : Str := (trimLeft s.reverse).reverse

/-- `String.prototype.trim`. -/
def trimStr (s : Str) : Str := trimLeft (trimRight s)

/-- `split('\n')`. -/
def splitLines : Str → List Str
  | [] => [[]]
  | c :: cs =>
    if c = '\n' then [] :: splitLines cs
    else (c :: (splitLines cs).headD []) :: (splitLines cs).tail

/-- `replace(/\r/g, '\n')` (the decoder's CR-to-LF normalization). -/
def cleanOf (s : Str) : Str := s.map (fun c => if c = '\r' then '\n' else c)

/-- Helper for `replace(/\s+/g, ' ')`: the flag records whether the
previous character was whitespace (in which case further whitespace is
dropped rather than replaced). -/
def collapseAux : Bool → Str → Str
  | _, [] => []
  | prevWS, c :: cs =>
    if isJsWS c then
      if prevWS then collapseAux true cs else ' ' :: collapseAux true cs
    else c :: collapseAux false cs

/-- `replace(/\s+/g, ' ')`: each maximal whitespace run becomes one space. -/
def collapseWS (s : Str) : Str := collapseAux false s

/-- Decimal rendering of a natural number (JS `Number.prototype.toString`),
written with explicit fuel so that it reduces definitionally. -/
def natToDecAux : Nat → Nat → Str
  | 0, _ => []
  | fuel + 1, n =>
    if n < 10 then [Char.ofNat (48 + n)]
    else natToDecAux fuel (n / 10) ++ [Char.ofNat (48 + n % 10)]

def natToDec (n : Nat) : Str := natToDecAux (n + 1) n

/-- `n.toString().padStart(4, '0')`. -/
def padStart4 (n : Nat) : Str :=
  List.replicate (4 - (natToDec n).length) '0' ++ natToDec n

/-- The Attribute Record (`DLFormData` from `src/types.ts`): one string
slot per data element, plus the jurisdiction slots. -/
structure DLFormData where
  DAJ : Str
  DCG : Str
  IIN : Str
  Version : Str
  DDA : Str
  DEB : Str
  DAQ : Str
  DBA : Str
  DCS : Str
  DAC : Str
  DAD : Str
  DBB : Str
  DBD : Str
  DAG : Str
  DAI : Str
  DAK : Str
  DCA : Str
  DBC : Str
  DAU : Str
  DAW : Str
  DAY : Str
  DAZ : Str
  DCB : Str
  DCD : Str
  DCF : Str
deriving DecidableEq, Repr

/-- One serialized element: identifier ++ value ++ LF. -/
def elemLine (k v : Str) : Str := k ++ v ++ ['\n']

/-- `data.DCB && data.DCB.trim() !== "" ? data.DCB : "NONE"`. -/
def restrictionsOf (d : DLFormData) : Str :=
  if d.DCB ≠ [] ∧ trimStr d.DCB ≠ [] then d.DCB else ['N', 'O', 'N', 'E']

/-- `data.DCD && data.DCD.trim() !== "" ? data.DCD : "NONE"`. -/
def endorsementsOf (d : DLFormData) : Str :=
  if d.DCD ≠ [] ∧ trimStr d.DCD ≠ [] then d.DCD else ['N', 'O', 'N', 'E']

/-- `data.DAU.endsWith(' in') || data.DAU.endsWith(' cm') ? data.DAU : data.DAU + ' in'`. -/
def heightValOf (d : DLFormData) : Str :=
  if ([' ', 'i', 'n'] : Str).isSuffixOf d.DAU || ([' ', 'c', 'm'] : Str).isSuffixOf d.DAU
  then d.DAU else d.DAU ++ [' ', 'i', 'n']

/-- The subfile data block (`sub` in `generateAAMVAString`): the "DL"
tag, then each element in the source's fixed order, truncation
placeholders DDE/DDF/DDG emitted with empty values. -/
def subfileBody (d : DLFormData) : Str :=
  ['D', 'L']
  ++ elemLine ['D', 'D', 'A'] d.DDA
  ++ elemLine ['D', 'E', 'B'] d.DEB
  ++ elemLine ['D', 'A', 'Q'] d.DAQ
  ++ elemLine ['D', 'C', 'S'] d.DCS
  ++ elemLine ['D', 'D', 'E'] []
  ++ elemLine ['D', 'A', 'C'] d.DAC
  ++ elemLine ['D', 'D', 'F'] []
  ++ elemLine ['D', 'A', 'D'] d.DAD
  ++ elemLine ['D', 'D', 'G'] []
  ++ elemLine ['D', 'C', 'A'] d.DCA
  ++ elemLine ['D', 'C', 'B'] (restrictionsOf d)
  ++ elemLine ['D', 'C', 'D'] (endorsementsOf d)
  ++ elemLine ['D', 'B', 'A'] d.DBA
  ++ elemLine ['D', 'B', 'B'] d.DBB
  ++ elemLine ['D', 'B', 'C'] d.DBC
  ++ elemLine ['D', 'A', 'Y'] d.DAY
  ++ elemLine ['D', 'A', 'Z'] d.DAZ
  ++ elemLine ['D', 'A', 'U'] (heightValOf d)
  ++ elemLine ['D', 'A', 'W'] d.DAW
  ++ elemLine ['D', 'A', 'G'] d.DAG
  ++ elemLine ['D', 'A', 'I'] d.DAI
  ++ elemLine ['D', 'A', 'J'] d.DAJ
  ++ elemLine ['D', 'A', 'K'] d.DAK
  ++ elemLine ['D', 'C', 'F'] d.DCF
  ++ elemLine ['D', 'C', 'G'] d.DCG
  ++ elemLine ['D', 'B', 'D'] d.DBD

/-- `generateAAMVAString`: "@" LF RS CR "ANSI " IIN Version "00" "01",
the subfile designator "DL" + offset + length, the subfile body, and a
final CR.  Offset is `21 + 10 = 31`; length is the body length plus one
(for the final CR), both zero-padded to 4 digits. -/
def generateAAMVAString (d : DLFormData) : Str :=
  ['@'] ++ ['\n'] ++ ['\x1e'] ++ ['\r']
  ++ ['A', 'N', 'S', 'I', ' ']
  ++ d.IIN ++ d.Version ++ ['0', '0'] ++ ['0', '1']
  ++ ['D', 'L'] ++ padStart4 31 ++ padStart4 ((subfileBody d).length + 1)
  ++ subfileBody d ++ ['\r']

/-- `raw.startsWith('@')`. -/
def startsAt : Str → Bool
  | '@' :: _ => true
  | _ => false

/-- `/^(DL|ID|EN)[A-Z]{3}/.test(line)`: a glued 2-letter subfile-type
tag followed by a 3-uppercase-letter element identifier. -/
def hasGluedTag : Str → Bool
  | a :: b :: c :: d :: e :: _ =>
    ((a = 'D' && b = 'L') || (a = 'I' && b = 'D') || (a = 'E' && b = 'N'))
      && c.isUpper && d.isUpper && e.isUpper
  | _ => false

/-- Strip the glued subfile tag when present (`line.substring(2)`). -/
def stripTag (l : Str) : Str := if hasGluedTag l then l.drop 2 else l

/-- The body of the decoder's per-line callback: trim, strip a glued
subfile tag, discard lines shorter than 4 characters, then match
`/^([A-Z]{3})(.*)$/` and record (identifier, trimmed value). -/
def parseLine (line : Str) : Option (Str × Str) :=
  if (stripTag (trimStr line)).length < 4 then none
  else
    match stripTag (trimStr line) with
    | a :: b :: c :: rest =>
      if a.isUpper && b.isUpper && c.isUpper then some ([a, b, c], trimStr rest)
      else none
    | _ => none

/-- `parseAAMVARaw`: empty map unless the record starts with "@";
otherwise normalize CR to LF, split into lines, and collect the
(identifier, value) pairs produced by each line. -/
def parseAAMVARaw (raw : Str) : List (Str × Str) :=
  if startsAt raw then (splitLines (cleanOf raw)).filterMap parseLine else []

/-- Lookup in the decoded map.  Later lines overwrite earlier entries
(`result[key] = val` on a JS object), so the last binding wins. -/
def mapLookup : List (Str × Str) → Str → Option Str
  | [], _ => none
  | p :: ps, k =>
    match mapLookup ps k with
    | some v => some v
    | none => if p.1 = k then some p.2 else none

/-! ## The Element Catalog and the Reconciler -/

/-- `/^[A-Z0-9]+$/i`. -/
def reAlnumCI (s : Str) : Bool :=
  !s.isEmpty && s.all (fun c => c.isAlpha || c.isDigit)

/-- `/^\d{8}$/`. -/
def reDate8 (s : Str) : Bool :=
  s.length = 8 && s.all Char.isDigit

/-- `/^[A-Z\s-]+$/i`. -/
def reNameCI (s : Str) : Bool :=
  !s.isEmpty && s.all (fun c => c.isAlpha || isJsWS c || c = '-')

/-- `/^[F|N]$/` (a character class, so the literal `|` is also accepted). -/
def reFN (s : Str) : Bool :=
  s.length = 1 && s.all (fun c => c = 'F' || c = '|' || c = 'N')

/-- `/^[A-Z]{2}$/`. -/
def reUpper2 (s : Str) : Bool :=
  s.length = 2 && s.all Char.isUpper

/-- `/^[0-9-]{5,11}$/`. -/
def reZip (s : Str) : Bool :=
  5 ≤ s.length && s.length ≤ 11 && s.all (fun c => c.isDigit || c = '-')

/-- `/^[12X]$/`. -/
def reSex (s : Str) : Bool :=
  s.length = 1 && s.all (fun c => c = '1' || c = '2' || c = 'X')

/-- `/^[A-Z]{3}$/`. -/
def reUpper3 (s : Str) : Bool :=
  s.length = 3 && s.all Char.isUpper

/-- One entry of `ELEMENT_MAP`: element identifier, description, the
Attribute-Record slot it reads (as an accessor), and the optional
format-validation pattern. -/
structure ElemEntry where
  elId : Str
  desc : Str
  get : DLFormData → Str
  pattern : Option (Str → Bool)

def entryDAQ : ElemEntry :=
  ⟨['D', 'A', 'Q'], "License Number".toList, fun d => d.DAQ, some reAlnumCI⟩

/-- `ELEMENT_MAP`, in the source's declaration order. -/
def ELEMENT_MAP : List ElemEntry :=
  [ entryDAQ
  , ⟨['D', 'B', 'A'], "Expiration Date".toList, fun d => d.DBA, some reDate8⟩
  , ⟨['D', 'C', 'S'], "Last Name".toList, fun d => d.DCS, some reNameCI⟩
  , ⟨['D', 'A', 'C'], "First Name".toList, fun d => d.DAC, some reNameCI⟩
  , ⟨['D', 'A', 'D'], "Middle Name".toList, fun d => d.DAD, none⟩
  , ⟨['D', 'B', 'B'], "Date of Birth".toList, fun d => d.DBB, some reDate8⟩
  , ⟨['D', 'B', 'D'], "Issue Date".toList, fun d => d.DBD, some reDate8⟩
  , ⟨['D', 'E', 'B'], "File Creation Date".toList, fun d => d.DEB, some reDate8⟩
  , ⟨['D', 'D', 'A'], "Compliance Type".toList, fun d => d.DDA, some reFN⟩
  , ⟨['D', 'A', 'G'], "Address Street".toList, fun d => d.DAG, none⟩
  , ⟨['D', 'A', 'I'], "City".toList, fun d => d.DAI, none⟩
  , ⟨['D', 'A', 'J'], "State Code".toList, fun d => d.DAJ, some reUpper2⟩
  , ⟨['D', 'A', 'K'], "Zip Code".toList, fun d => d.DAK, some reZip⟩
  , ⟨['D', 'C', 'A'], "Class".toList, fun d => d.DCA, none⟩
  , ⟨['D', 'B', 'C'], "Sex".toList, fun d => d.DBC, some reSex⟩
  , ⟨['D', 'A', 'U'], "Height".toList, fun d => d.DAU, none⟩
  , ⟨['D', 'A', 'W'], "Weight".toList, fun d => d.DAW, none⟩
  , ⟨['D', 'A', 'Y'], "Eye Color".toList, fun d => d.DAY, some reUpper3⟩
  , ⟨['D', 'A', 'Z'], "Hair Color".toList, fun d => d.DAZ, some reUpper3⟩
  , ⟨['D', 'C', 'B'], "Restrictions".toList, fun d => d.DCB, none⟩
  , ⟨['D', 'C', 'D'], "Endorsements".toList, fun d => d.DCD, none⟩
  , ⟨['D', 'C', 'F'], "Doc Discriminator".toList, fun d => d.DCF, none⟩
  , ⟨['D', 'C', 'G'], "Country".toList, fun d => d.DCG, some reUpper3⟩ ]

inductive VStatus where
  | MATCH
  | MISMATCH
  | MISSING_IN_SCAN
  | INVALID_FORMAT
deriving DecidableEq, Repr

structure ValidationField where
  elementId : Str
  description : Str
  formValue : Str
  scannedValue : Str
  status : VStatus
  message : Option Str
deriving DecidableEq, Repr

instance : Inhabited ValidationField :=
  ⟨⟨[], [], [], [], VStatus.MATCH, none⟩⟩

structure ValidationReport where
  isValidSignature : Bool
  rawString : Str
  fields : List ValidationField
deriving DecidableEq, Repr

/-- `scannedVal.toUpperCase().replace(/\s+/g, ' ').trim()`. -/
def normalizeVal (v : Str) : Str := trimStr (collapseWS (v.map Char.toUpper))

/-- `replace(/\D/g, '')`. -/
def digitsOnly (v : Str) : Str := v.filter Char.isDigit

/-- `raw.includes(pat)`. -/
def containsSub (pat : Str) : Str → Bool
  | [] => pat.isEmpty
  | c :: cs => pat.isPrefixOf (c :: cs) || containsSub pat cs

/-- Whether the catalog pattern (if any) rejects the scanned value. -/
def patFails (e : ElemEntry) (v : Str) : Bool :=
  match e.pattern with
  | some p => !(p v)
  | none => false

/-- The body of the Reconciler's per-catalog-entry loop in
`validateBarcode`: missing/empty scanned values give MISSING_IN_SCAN
(with the "Not Found" sentinel and the `formVal || '(empty)'` default);
otherwise the pattern check runs first and a normalized (for DAU:
digit-only) comparison may override its outcome with MISMATCH. -/
def checkField (scanned : List (Str × Str)) (d : DLFormData) (e : ElemEntry) :
    ValidationField :=
  let formVal := e.get d
  let missing : ValidationField :=
    { elementId := e.elId
      description := e.desc
      formValue := if formVal = [] then "(empty)".toList else formVal
      scannedValue := "Not Found".toList
      status := VStatus.MISSING_IN_SCAN
      message := none }
  match mapLookup scanned e.elId with
  | none => missing
  | some sv =>
    if sv = [] then missing
    else
      let st1 : VStatus :=
        if patFails e sv then VStatus.INVALID_FORMAT else VStatus.MATCH
      let msg1 : Str :=
        if patFails e sv then
          "Format mismatch for ".toList ++ e.desc ++ ". Expected pattern.".toList
        else []
      let ns := normalizeVal sv
      let nf := normalizeVal formVal
      let res : VStatus × Str :=
        if e.elId = ['D', 'A', 'U'] then
          let hs := digitsOnly ns
          let hf := digitsOnly nf
          if hs ≠ hf then
            (VStatus.MISMATCH,
              "Values differ: Form(".toList ++ hf ++ ") vs Scan(".toList ++ hs ++ [')'])
          else (st1, msg1)
        else
          if ns ≠ nf then (VStatus.MISMATCH, "Data mismatch.".toList)
          else (st1, msg1)
      { elementId := e.elId
        description := e.desc
        formValue := formVal
        scannedValue := sv
        status := res.1
        message := some res.2 }

/-- `validateBarcode`: decode, check the signature ("@" prefix and an
"ANSI" substring), and run the per-entry check over the catalog. -/
def validateBarcode (raw : Str) (d : DLFormData) : ValidationReport :=
  { isValidSignature := startsAt raw && containsSub ['A', 'N', 'S', 'I'] raw
    rawString := raw
    fields := ELEMENT_MAP.map (checkField (parseAAMVARaw raw) d) }

/-! ## Well-formedness of an Attribute Record -/

/-- A slot value that survives serialization intact: nonempty, no
leading or trailing whitespace, and free of the LF/CR framing
characters. -/
def cleanSlot (v : Str) : Prop :=
  v ≠ [] ∧ isJsWS (v.headD 'A') = false ∧ isJsWS (v.getLastD 'A') = false ∧
    ∀ c ∈ v, c ≠ '\n' ∧ c ≠ '\r'

instance (v : Str) : Decidable (cleanSlot v) := by
  unfold cleanSlot; infer_instance

/-- A well-formed Attribute Record: every slot is clean and the height
already carries its unit suffix. -/
def wellFormed (d : DLFormData) : Prop :=
  cleanSlot d.DAJ ∧ cleanSlot d.DCG ∧ cleanSlot d.IIN ∧ cleanSlot d.Version ∧
  cleanSlot d.DDA ∧ cleanSlot d.DEB ∧ cleanSlot d.DAQ ∧ cleanSlot d.DBA ∧
  cleanSlot d.DCS ∧ cleanSlot d.DAC ∧ cleanSlot d.DAD ∧ cleanSlot d.DBB ∧
  cleanSlot d.DBD ∧ cleanSlot d.DAG ∧ cleanSlot d.DAI ∧ cleanSlot d.DAK ∧
  cleanSlot d.DCA ∧ cleanSlot d.DBC ∧ cleanSlot d.DAU ∧ cleanSlot d.DAW ∧
  cleanSlot d.DAY ∧ cleanSlot d.DAZ ∧ cleanSlot d.DCB ∧ cleanSlot d.DCD ∧
  cleanSlot d.DCF ∧
  (([' ', 'i', 'n'] : Str).isSuffixOf d.DAU ||
    ([' ', 'c', 'm'] : Str).isSuffixOf d.DAU) = true

instance (d : DLFormData) : Decidable (wellFormed d) := by
  unfold wellFormed; infer_instance

/-- Every pattern-bearing catalog slot passes its pattern (DDA's is
irrelevant because its line is never decoded). -/
def formatValid (d : DLFormData) : Prop :=
  reAlnumCI d.DAQ = true ∧ reDate8 d.DBA = true ∧ reNameCI d.DCS = true ∧
  reNameCI d.DAC = true ∧ reDate8 d.DBB = true ∧ reDate8 d.DBD = true ∧
  reDate8 d.DEB = true ∧ reUpper2 d.DAJ = true ∧ reZip d.DAK = true ∧
  reSex d.DBC = true ∧ reUpper3 d.DAY = true ∧ reUpper3 d.DAZ = true ∧
  reUpper3 d.DCG = true

instance (d : DLFormData) : Decidable (formatValid d) := by
  unfold formatValid; infer_instance

/-- A concrete well-formed Attribute Record used as a test vector. -/
def sampleA : DLFormData :=
  { DAJ := "CA".toList
    DCG := "USA".toList
    IIN := "636014".toList
    Version := "08".toList
    DDA := "F".toList
    DEB := "01012024".toList
    DAQ := "D1234562".toList
    DBA := "08092028".toList
    DCS := "DOE".toList
    DAC := "JOHN".toList
    DAD := "A".toList
    DBB := "01151985".toList
    DBD := "01152023".toList
    DAG := "123 MAIN ST".toList
    DAI := "ANYTOWN".toList
    DAK := "90210".toList
    DCA := "C".toList
    DBC := "1".toList
    DAU := "70 in".toList
    DAW := "180".toList
    DAY := "BRO".toList
    DAZ := "BRN".toList
    DCB := "NONE".toList
    DCD := "NONE".toList
    DCF := "1234567890".toList }

/-- The sample record with a blank restrictions slot and a
whitespace-only endorsements slot (for the default-substitution check). -/
def sampleB : DLFormData := { sampleA with DCB := [], DCD := [' '] }

/-- The sample record whose height slot is "070 in". -/
def sampleC : DLFormData := { sampleA with DAU := "070 in".toList }

/-- The sample record whose height slot is "70 in". -/
def sampleC2 : DLFormData := { sampleA with DAU := "70 in".toList }

/-- The sample record whose state-code slot is lowercase "california". -/
def sampleE : DLFormData := { sampleA with DAJ := "california".toList }

/-- A raw scan carrying only a height element "70". -/
def rawDAU70 : Str := "@\nDAU70".toList

/-- A raw scan carrying only a state-code element "california". -/
def rawDAJca : Str := "@\nDAJcalifornia".toList

/-- A raw scan that is just the compliance indicator: every catalog
element is absent from its decoded map. -/
def rawAtOnly : Str := ['@']

/-- A well-formed header as in the spec's signature-detection example. -/
def rawSigOk : Str := "@\n\x1e\rANSI 636000080001DL".toList

/-- An input that does not start with "@". -/
def rawNoAt : Str := "XANSI 636000".toList

/-- A raw scan with one trimmed-value element, exercising the decoder's
value trimming. -/
def rawPadded : Str := "@\nDAQ 123 ".toList

/-- Concatenate lines, terminating each with LF (the shape of the
encoder's output after CR-normalization). -/
def joinT : List Str → Str
  | [] => []
  | l :: ls => l ++ '\n' :: joinT ls

/-- The first physical line of the encoder's output after the CR that
follows the record separator: the whole header, both "DL" tags, offset,
length, and the first element DDA with its value — nothing breaks this
line before the LF that terminates the DDA element. -/
def hdrLine (d : DLFormData) : Str :=
  ['A', 'N', 'S', 'I', ' '] ++ d.IIN ++ d.Version ++ ['0', '0'] ++ ['0', '1']
  ++ ['D', 'L'] ++ padStart4 31 ++ padStart4 ((subfileBody d).length + 1)
  ++ ['D', 'L'] ++ ['D', 'D', 'A'] ++ d.DDA

/-- The tail of `hdrLine` after its first three characters. -/
def hdrRest (d : DLFormData) : Str :=
  ['I', ' '] ++ d.IIN ++ d.Version ++ ['0', '0'] ++ ['0', '1']
  ++ ['D', 'L'] ++ padStart4 31 ++ padStart4 ((subfileBody d).length + 1)
  ++ ['D', 'L'] ++ ['D', 'D', 'A'] ++ d.DDA

/-- The decoded map of a well-formed record's serialization: the header
line is swallowed into a spurious "ANS" entry, the truncation
placeholders disappear, and the remaining 22 elements survive. -/
def bodyEntries (d : DLFormData) : List (Str × Str) :=
  [ (['D', 'E', 'B'], d.DEB), (['D', 'A', 'Q'], d.DAQ), (['D', 'C', 'S'], d.DCS)
  , (['D', 'A', 'C'], d.DAC), (['D', 'A', 'D'], d.DAD), (['D', 'C', 'A'], d.DCA)
  , (['D', 'C', 'B'], d.DCB), (['D', 'C', 'D'], d.DCD), (['D', 'B', 'A'], d.DBA)
  , (['D', 'B', 'B'], d.DBB), (['D', 'B', 'C'], d.DBC), (['D', 'A', 'Y'], d.DAY)
  , (['D', 'A', 'Z'], d.DAZ), (['D', 'A', 'U'], d.DAU), (['D', 'A', 'W'], d.DAW)
  , (['D', 'A', 'G'], d.DAG), (['D', 'A', 'I'], d.DAI), (['D', 'A', 'J'], d.DAJ)
  , (['D', 'A', 'K'], d.DAK), (['D', 'C', 'F'], d.DCF), (['D', 'C', 'G'], d.DCG)
  , (['D', 'B', 'D'], d.DBD) ]

/-- The physical lines of a well-formed record's serialization after
CR-normalization and splitting. -/
def genLines (d : DLFormData) : List Str :=
  [ ['@'], ['\x1e'], hdrLine d
  , ['D', 'E', 'B'] ++ d.DEB, ['D', 'A', 'Q'] ++ d.DAQ, ['D', 'C', 'S'] ++ d.DCS
  , ['D', 'D', 'E'], ['D', 'A', 'C'] ++ d.DAC, ['D', 'D', 'F']
  , ['D', 'A', 'D'] ++ d.DAD, ['D', 'D', 'G'], ['D', 'C', 'A'] ++ d.DCA
  , ['D', 'C', 'B'] ++ d.DCB, ['D', 'C', 'D'] ++ d.DCD, ['D', 'B', 'A'] ++ d.DBA
  , ['D', 'B', 'B'] ++ d.DBB, ['D', 'B', 'C'] ++ d.DBC, ['D', 'A', 'Y'] ++ d.DAY
  , ['D', 'A', 'Z'] ++ d.DAZ, ['D', 'A', 'U'] ++ d.DAU, ['D', 'A', 'W'] ++ d.DAW
  , ['D', 'A', 'G'] ++ d.DAG, ['D', 'A', 'I'] ++ d.DAI, ['D', 'A', 'J'] ++ d.DAJ
  , ['D', 'A', 'K'] ++ d.DAK, ['D', 'C', 'F'] ++ d.DCF, ['D', 'C', 'G'] ++ d.DCG
  , ['D', 'B', 'D'] ++ d.DBD, [] ]

/-! ## Lemmas about trimming -/

theorem trimLeft_cons_of_not_ws {c : Char} (cs : Str) (h : isJsWS c = false) :
    trimLeft (c :: cs) = c :: cs := by
  simp [trimLeft, h]

theorem trimLeft_headD (l : Str) :
    trimLeft l = [] ∨ isJsWS ((trimLeft l).headD 'A') = false := by
  induction l with
  | nil => exact Or.inl rfl
  | cons c cs ih =>
    by_cases h : isJsWS c = true
    · simpa [trimLeft, h] using ih
    · simp at h
      right
      simp [trimLeft, h]

theorem trimLeft_suffix (l : Str) : trimLeft l <:+ l := by
  induction l with
  | nil => exact List.suffix_rfl
  | cons c cs ih =>
    by_cases h : isJsWS c = true
    · simp only [trimLeft, h, if_true]
      exact ih.trans (List.suffix_cons c cs)
    · simp at h
      simp [trimLeft, h]

theorem getLastD_append (u : Str) {v : Str} (h : v ≠ []) (x : Char) :
    (u ++ v).getLastD x = v.getLastD x := by
  rcases List.eq_nil_or_concat v with rfl | ⟨w, b, rfl⟩
  · exact absurd rfl h
  · rw [List.concat_eq_append, ← List.append_assoc]
    simp [List.getLastD_concat]

theorem getLastD_reverse (l : Str) (x : Char) :
    l.reverse.getLastD x = l.headD x := by
  cases l with
  | nil => rfl
  | cons c cs => simp [List.reverse_cons, List.getLastD_concat]

theorem trimRight_eq_self {l : Str} (h : isJsWS (l.getLastD 'A') = false) :
    trimRight l = l := by
  rcases List.eq_nil_or_concat l with rfl | ⟨u, b, rfl⟩
  · rfl
  · have hb : isJsWS b = false := by simpa [List.getLastD_concat] using h
    simp [trimRight, List.reverse_append, trimLeft_cons_of_not_ws _ hb]

theorem trimStr_eq_self {l : Str} (h1 : isJsWS (l.headD 'A') = false)
    (h2 : isJsWS (l.getLastD 'A') = false) : trimStr l = l := by
  unfold trimStr
  rw [trimRight_eq_self h2]
  cases l with
  | nil => rfl
  | cons c cs => exact trimLeft_cons_of_not_ws _ (by simpa using h1)

theorem trimStr_headD {l : Str} (h : trimStr l ≠ []) :
    isJsWS ((trimStr l).headD 'A') = false := by
  rcases trimLeft_headD (trimRight l) with h' | h'
  · exact absurd h' h
  · exact h'

theorem trimRight_getLastD {l : Str} (h : trimRight l ≠ []) :
    isJsWS ((trimRight l).getLastD 'A') = false := by
  have hne : trimLeft l.reverse ≠ [] := by
    intro hc
    exact h (by simp [trimRight, hc])
  rcases trimLeft_headD l.reverse with h' | h'
  · exact absurd h' hne
  · rw [trimRight, getLastD_reverse]
    exact h'

theorem trimStr_getLastD {l : Str} (h : trimStr l ≠ []) :
    isJsWS ((trimStr l).getLastD 'A') = false := by
  obtain ⟨u, hu⟩ : trimStr l <:+ trimRight l := trimLeft_suffix _
  have hne : trimRight l ≠ [] := by
    intro hc
    rw [hc] at hu
    exact h (List.append_eq_nil.mp hu).2
  have h2 := trimRight_getLastD (l := l) hne
  rw [← hu, getLastD_append u h] at h2
  exact h2

/-! ## Lemmas about line splitting -/

theorem splitLines_append_cons (xs ys : Str) (h : '\n' ∉ xs) :
    splitLines (xs ++ '\n' :: ys) = xs :: splitLines ys := by
  induction xs with
  | nil => simp [splitLines]
  | cons x xs ih =>
    have hx : x ≠ '\n' := fun hc => h (hc ▸ List.mem_cons_self x xs)
    have ih' := ih (fun hm => h (List.mem_cons_of_mem x hm))
    simp [splitLines, hx, ih']

theorem splitLines_joinT (L : List Str) (h : ∀ l ∈ L, '\n' ∉ l) :
    splitLines (joinT L) = L ++ [[]] := by
  induction L with
  | nil => rfl
  | cons l ls ih =>
    rw [joinT, splitLines_append_cons l _ (h l (List.mem_cons_self _ _)),
      ih (fun x hx => h x (List.mem_cons_of_mem _ hx))]
    rfl

/-! ## Characters of the computed length field -/

theorem natToDecAux_mem (fuel : Nat) : ∀ (n : Nat), ∀ c ∈ natToDecAux fuel n,
    c ≠ '\n' ∧ c ≠ '\r' := by
  induction fuel with
  | zero => intro n c hc; simp [natToDecAux] at hc
  | succ fuel ih =>
    intro n c hc
    by_cases h : n < 10
    · simp [natToDecAux, h] at hc
      subst hc
      interval_cases n <;> exact ⟨by decide, by decide⟩
    · simp only [natToDecAux, h, if_false, List.mem_append] at hc
      rcases hc with hc | hc
      · exact ih _ c hc
      · simp at hc
        subst hc
        have hlt : n % 10 < 10 := Nat.mod_lt _ (by norm_num)
        set m := n % 10 with hm
        interval_cases m <;> exact ⟨by decide, by decide⟩

theorem padStart4_mem (n : Nat) : ∀ c ∈ padStart4 n, c ≠ '\n' ∧ c ≠ '\r' := by
  intro c hc
  simp only [padStart4, List.mem_append] at hc
  rcases hc with hc | hc
  · rcases List.eq_of_mem_replicate hc with rfl
    exact ⟨by decide, by decide⟩
  · exact natToDecAux_mem _ _ c hc

/-! ## CR-normalization -/

theorem cleanOf_append (u v : Str) : cleanOf (u ++ v) = cleanOf u ++ cleanOf v :=
  List.map_append _ u v

theorem cleanOf_eq_self {v : Str} (h : ∀ c ∈ v, c ≠ '\r') : cleanOf v = v := by
  induction v with
  | nil => rfl
  | cons c cs ih =>
    have hc : c ≠ '\r' := h c (List.mem_cons_self _ _)
    simp only [cleanOf, List.map_cons, if_neg hc]
    exact congrArg (c :: ·) (ih (fun x hx => h x (List.mem_cons_of_mem _ hx)))

theorem cleanOf_of_cleanSlot {v : Str} (h : cleanSlot v) : cleanOf v = v :=
  cleanOf_eq_self (fun c hc => (h.2.2.2 c hc).2)

theorem cleanOf_padStart4 (n : Nat) : cleanOf (padStart4 n) = padStart4 n :=
  cleanOf_eq_self (fun c hc => (padStart4_mem n c hc).2)

/-! ## Consequences of slot cleanliness -/

theorem trimStr_of_cleanSlot {v : Str} (h : cleanSlot v) : trimStr v = v :=
  trimStr_eq_self h.2.1 h.2.2.1

theorem cleanSlot_no_nl {v : Str} (h : cleanSlot v) : '\n' ∉ v :=
  fun hm => (h.2.2.2 _ hm).1 rfl

theorem cleanSlot_no_cr {v : Str} (h : cleanSlot v) : '\r' ∉ v :=
  fun hm => (h.2.2.2 _ hm).2 rfl

theorem padStart4_no_nl (n : Nat) : '\n' ∉ padStart4 n :=
  fun hm => (padStart4_mem n _ hm).1 rfl

theorem no_nl_append {u v : Str} (hu : '\n' ∉ u) (hv : '\n' ∉ v) :
    '\n' ∉ u ++ v :=
  fun h => (not_or.mpr ⟨hu, hv⟩) (List.mem_append.mp h)

theorem no_nl_keyed {k v : Str} (hk : '\n' ∉ k) (h : cleanSlot v) : '\n' ∉ k ++ v :=
  no_nl_append hk (cleanSlot_no_nl h)

/-! ## Behavior of the decoder on single lines -/

theorem hasGluedTag_keyed {k1 k2 k3 : Char} (v : Str)
    (hk : ((k1 = 'D' && k2 = 'L') || (k1 = 'I' && k2 = 'D') ||
      (k1 = 'E' && k2 = 'N')) = false) :
    hasGluedTag (k1 :: k2 :: k3 :: v) = false := by
  match v with
  | [] => rfl
  | [v1] => rfl
  | v1 :: v2 :: vs => simp [hasGluedTag, hk]

theorem parseLine_keyed (k1 k2 k3 : Char) {v : Str}
    (h1 : k1.isUpper = true) (h2 : k2.isUpper = true) (h3 : k3.isUpper = true)
    (hnw : isJsWS k1 = false)
    (hk : ((k1 = 'D' && k2 = 'L') || (k1 = 'I' && k2 = 'D') ||
      (k1 = 'E' && k2 = 'N')) = false)
    (hv : v ≠ []) (hlast : isJsWS (v.getLastD 'A') = false) :
    parseLine (k1 :: k2 :: k3 :: v) = some ([k1, k2, k3], trimStr v) := by
  have hlast' : isJsWS ((k1 :: k2 :: k3 :: v).getLastD 'A') = false := by
    have hsh : (k1 :: k2 :: k3 :: v) = [k1, k2, k3] ++ v := rfl
    rw [hsh, getLastD_append _ hv]
    exact hlast
  have htrim : trimStr (k1 :: k2 :: k3 :: v) = k1 :: k2 :: k3 :: v :=
    trimStr_eq_self (by simpa using hnw) hlast'
  have hglue : hasGluedTag (k1 :: k2 :: k3 :: v) = false := hasGluedTag_keyed v hk
  have hv1 : 1 ≤ v.length := List.length_pos.mpr hv
  have hlen : ¬ ((k1 :: k2 :: k3 :: v).length < 4) := by
    simp only [List.length_cons]
    omega
  simp [parseLine, htrim, stripTag, hglue, hlen, h1, h2, h3, hv1]

theorem parseLine_clean (k1 k2 k3 : Char) {v : Str}
    (h1 : k1.isUpper = true) (h2 : k2.isUpper = true) (h3 : k3.isUpper = true)
    (hnw : isJsWS k1 = false)
    (hk : ((k1 = 'D' && k2 = 'L') || (k1 = 'I' && k2 = 'D') ||
      (k1 = 'E' && k2 = 'N')) = false)
    (hc : cleanSlot v) :
    parseLine (k1 :: k2 :: k3 :: v) = some ([k1, k2, k3], v) := by
  rw [parseLine_keyed k1 k2 k3 h1 h2 h3 hnw hk hc.1 hc.2.2.1,
    trimStr_of_cleanSlot hc]

/-! ## The physical lines of the encoder's output -/

theorem hdrLine_no_nl (d : DLFormData) (hIIN : cleanSlot d.IIN)
    (hVer : cleanSlot d.Version) (hDDA : cleanSlot d.DDA) :
    '\n' ∉ hdrLine d := by
  unfold hdrLine
  exact no_nl_append (no_nl_append (no_nl_append (no_nl_append (no_nl_append
    (no_nl_append (no_nl_append (no_nl_append (no_nl_append (no_nl_append
      (by decide) (cleanSlot_no_nl hIIN)) (cleanSlot_no_nl hVer)) (by decide))
      (by decide)) (by decide)) (padStart4_no_nl _)) (padStart4_no_nl _))
      (by decide)) (by decide)) (cleanSlot_no_nl hDDA)

theorem clean_gen (d : DLFormData) (hw : wellFormed d) :
    cleanOf (generateAAMVAString d) = joinT (genLines d) := by
  obtain ⟨hDAJ, hDCG, hIIN, hVer, hDDA, hDEB, hDAQ, hDBA, hDCS, hDAC, hDAD,
    hDBB, hDBD, hDAG, hDAI, hDAK, hDCA, hDBC, hDAU, hDAW, hDAY, hDAZ, hDCB,
    hDCD, hDCF, hsuf⟩ := hw
  have hres : restrictionsOf d = d.DCB := by
    rw [restrictionsOf,
      if_pos ⟨hDCB.1, by rw [trimStr_of_cleanSlot hDCB]; exact hDCB.1⟩]
  have hend : endorsementsOf d = d.DCD := by
    rw [endorsementsOf,
      if_pos ⟨hDCD.1, by rw [trimStr_of_cleanSlot hDCD]; exact hDCD.1⟩]
  have hhgt : heightValOf d = d.DAU := by
    rw [heightValOf, if_pos hsuf]
  simp only [generateAAMVAString, genLines, hdrLine, joinT]
  generalize (subfileBody d).length + 1 = L
  simp only [subfileBody, elemLine, hres, hend, hhgt,
    cleanOf_append, cleanOf_of_cleanSlot hDAJ, cleanOf_of_cleanSlot hDCG,
    cleanOf_of_cleanSlot hIIN, cleanOf_of_cleanSlot hVer,
    cleanOf_of_cleanSlot hDDA, cleanOf_of_cleanSlot hDEB,
    cleanOf_of_cleanSlot hDAQ, cleanOf_of_cleanSlot hDBA,
    cleanOf_of_cleanSlot hDCS, cleanOf_of_cleanSlot hDAC,
    cleanOf_of_cleanSlot hDAD, cleanOf_of_cleanSlot hDBB,
    cleanOf_of_cleanSlot hDBD, cleanOf_of_cleanSlot hDAG,
    cleanOf_of_cleanSlot hDAI, cleanOf_of_cleanSlot hDAK,
    cleanOf_of_cleanSlot hDCA, cleanOf_of_cleanSlot hDBC,
    cleanOf_of_cleanSlot hDAU, cleanOf_of_cleanSlot hDAW,
    cleanOf_of_cleanSlot hDAY, cleanOf_of_cleanSlot hDAZ,
    cleanOf_of_cleanSlot hDCB, cleanOf_of_cleanSlot hDCD,
    cleanOf_of_cleanSlot hDCF, cleanOf_padStart4]
  simp [cleanOf, List.append_assoc]

theorem splitLines_clean_gen (d : DLFormData) (hw : wellFormed d) :
    splitLines (cleanOf (generateAAMVAString d)) = genLines d ++ [[]] := by
  rw [clean_gen d hw]
  obtain ⟨hDAJ, hDCG, hIIN, hVer, hDDA, hDEB, hDAQ, hDBA, hDCS, hDAC, hDAD,
    hDBB, hDBD, hDAG, hDAI, hDAK, hDCA, hDBC, hDAU, hDAW, hDAY, hDAZ, hDCB,
    hDCD, hDCF, hsuf⟩ := hw
  apply splitLines_joinT
  intro l hl
  simp only [genLines, List.mem_cons, List.not_mem_nil, or_false] at hl
  rcases hl with rfl | rfl | rfl | rfl | rfl | rfl | rfl | rfl | rfl | rfl |
    rfl | rfl | rfl | rfl | rfl | rfl | rfl | rfl | rfl | rfl | rfl | rfl |
    rfl | rfl | rfl | rfl | rfl | rfl | rfl
  exacts [by decide, by decide, hdrLine_no_nl d hIIN hVer hDDA,
    no_nl_keyed (by decide) hDEB, no_nl_keyed (by decide) hDAQ,
    no_nl_keyed (by decide) hDCS, by decide,
    no_nl_keyed (by decide) hDAC, by decide,
    no_nl_keyed (by decide) hDAD, by decide,
    no_nl_keyed (by decide) hDCA, no_nl_keyed (by decide) hDCB,
    no_nl_keyed (by decide) hDCD, no_nl_keyed (by decide) hDBA,
    no_nl_keyed (by decide) hDBB, no_nl_keyed (by decide) hDBC,
    no_nl_keyed (by decide) hDAY, no_nl_keyed (by decide) hDAZ,
    no_nl_keyed (by decide) hDAU, no_nl_keyed (by decide) hDAW,
    no_nl_keyed (by decide) hDAG, no_nl_keyed (by decide) hDAI,
    no_nl_keyed (by decide) hDAJ, no_nl_keyed (by decide) hDAK,
    no_nl_keyed (by decide) hDCF, no_nl_keyed (by decide) hDCG,
    no_nl_keyed (by decide) hDBD, by decide]

/-! ## The decoded map of an encoded record -/

theorem gen_startsAt (d : DLFormData) :
    startsAt (generateAAMVAString d) = true := rfl

theorem hdrLine_shape (d : DLFormData) :
    hdrLine d = 'A' :: 'N' :: 'S' :: hdrRest d := by
  simp [hdrLine, hdrRest, List.append_assoc]

theorem hdrRest_ne_nil (d : DLFormData) : hdrRest d ≠ [] := by
  simp [hdrRest]

theorem hdrRest_getLastD (d : DLFormData) (hDDA : cleanSlot d.DDA) :
    isJsWS ((hdrRest d).getLastD 'A') = false := by
  unfold hdrRest
  rw [getLastD_append _ hDDA.1]
  exact hDDA.2.2.1

theorem parseLine_hdrLine (d : DLFormData) (hDDA : cleanSlot d.DDA) :
    parseLine (hdrLine d) = some (['A', 'N', 'S'], trimStr (hdrRest d)) := by
  rw [hdrLine_shape]
  exact parseLine_keyed 'A' 'N' 'S' (by decide) (by decide) (by decide)
    (by decide) (by decide) (hdrRest_ne_nil d) (hdrRest_getLastD d hDDA)

theorem parse_gen (d : DLFormData) (hw : wellFormed d) :
    ∃ w, parseAAMVARaw (generateAAMVAString d) =
      (['A', 'N', 'S'], w) :: bodyEntries d := by
  refine ⟨trimStr (hdrRest d), ?_⟩
  have hsplit := splitLines_clean_gen d hw
  obtain ⟨hDAJ, hDCG, hIIN, hVer, hDDA, hDEB, hDAQ, hDBA, hDCS, hDAC, hDAD,
    hDBB, hDBD, hDAG, hDAI, hDAK, hDCA, hDBC, hDAU, hDAW, hDAY, hDAZ, hDCB,
    hDCD, hDCF, hsuf⟩ := hw
  rw [parseAAMVARaw, if_pos (by rw [gen_startsAt]), hsplit]
  have e1 : parseLine ['@'] = none := by decide
  have e2 : parseLine ['\x1e'] = none := by decide
  have e3 := parseLine_hdrLine d hDDA
  have e4 : parseLine ['D', 'D', 'E'] = none := by decide
  have e5 : parseLine ['D', 'D', 'F'] = none := by decide
  have e6 : parseLine ['D', 'D', 'G'] = none := by decide
  have e7 : parseLine ([] : Str) = none := by decide
  simp only [genLines, List.cons_append, List.nil_append, List.filterMap_cons,
    e1, e2, e3, e4, e5, e6, e7, List.filterMap_nil,
    parseLine_clean 'D' 'E' 'B' (by decide) (by decide) (by decide) (by decide) (by decide) hDEB,
    parseLine_clean 'D' 'A' 'Q' (by decide) (by decide) (by decide) (by decide) (by decide) hDAQ,
    parseLine_clean 'D' 'C' 'S' (by decide) (by decide) (by decide) (by decide) (by decide) hDCS,
    parseLine_clean 'D' 'A' 'C' (by decide) (by decide) (by decide) (by decide) (by decide) hDAC,
    parseLine_clean 'D' 'A' 'D' (by decide) (by decide) (by decide) (by decide) (by decide) hDAD,
    parseLine_clean 'D' 'C' 'A' (by decide) (by decide) (by decide) (by decide) (by decide) hDCA,
    parseLine_clean 'D' 'C' 'B' (by decide) (by decide) (by decide) (by decide) (by decide) hDCB,
    parseLine_clean 'D' 'C' 'D' (by decide) (by decide) (by decide) (by decide) (by decide) hDCD,
    parseLine_clean 'D' 'B' 'A' (by decide) (by decide) (by decide) (by decide) (by decide) hDBA,
    parseLine_clean 'D' 'B' 'B' (by decide) (by decide) (by decide) (by decide) (by decide) hDBB,
    parseLine_clean 'D' 'B' 'C' (by decide) (by decide) (by decide) (by decide) (by decide) hDBC,
    parseLine_clean 'D' 'A' 'Y' (by decide) (by decide) (by decide) (by decide) (by decide) hDAY,
    parseLine_clean 'D' 'A' 'Z' (by decide) (by decide) (by decide) (by decide) (by decide) hDAZ,
    parseLine_clean 'D' 'A' 'U' (by decide) (by decide) (by decide) (by decide) (by decide) hDAU,
    parseLine_clean 'D' 'A' 'W' (by decide) (by decide) (by decide) (by decide) (by decide) hDAW,
    parseLine_clean 'D' 'A' 'G' (by decide) (by decide) (by decide) (by decide) (by decide) hDAG,
    parseLine_clean 'D' 'A' 'I' (by decide) (by decide) (by decide) (by decide) (by decide) hDAI,
    parseLine_clean 'D' 'A' 'J' (by decide) (by decide) (by decide) (by decide) (by decide) hDAJ,
    parseLine_clean 'D' 'A' 'K' (by decide) (by decide) (by decide) (by decide) (by decide) hDAK,
    parseLine_clean 'D' 'C' 'F' (by decide) (by decide) (by decide) (by decide) (by decide) hDCF,
    parseLine_clean 'D' 'C' 'G' (by decide) (by decide) (by decide) (by decide) (by decide) hDCG,
    parseLine_clean 'D' 'B' 'D' (by decide) (by decide) (by decide) (by decide) (by decide) hDBD]
  rfl

/-! ## Lookups in the decoded map of an encoded record -/

theorem lkDEB (d : DLFormData) (hw : wellFormed d) :
    mapLookup (parseAAMVARaw (generateAAMVAString d)) ['D', 'E', 'B'] =
      some d.DEB := by
  obtain ⟨w, hp⟩ := parse_gen d hw
  rw [hp]
  simp [mapLookup, bodyEntries]

theorem lkDAQ (d : DLFormData) (hw : wellFormed d) :
    mapLookup (parseAAMVARaw (generateAAMVAString d)) ['D', 'A', 'Q'] =
      some d.DAQ := by
  obtain ⟨w, hp⟩ := parse_gen d hw
  rw [hp]
  simp [mapLookup, bodyEntries]

theorem lkDCS (d : DLFormData) (hw : wellFormed d) :
    mapLookup (parseAAMVARaw (generateAAMVAString d)) ['D', 'C', 'S'] =
      some d.DCS := by
  obtain ⟨w, hp⟩ := parse_gen d hw
  rw [hp]
  simp [mapLookup, bodyEntries]

theorem lkDAC (d : DLFormData) (hw : wellFormed d) :
    mapLookup (parseAAMVARaw (generateAAMVAString d)) ['D', 'A', 'C'] =
      some d.DAC := by
  obtain ⟨w, hp⟩ := parse_gen d hw
  rw [hp]
  simp [mapLookup, bodyEntries]

theorem lkDAD (d : DLFormData) (hw : wellFormed d) :
    mapLookup (parseAAMVARaw (generateAAMVAString d)) ['D', 'A', 'D'] =
      some d.DAD := by
  obtain ⟨w, hp⟩ := parse_gen d hw
  rw [hp]
  simp [mapLookup, bodyEntries]

theorem lkDCA (d : DLFormData) (hw : wellFormed d) :
    mapLookup (parseAAMVARaw (generateAAMVAString d)) ['D', 'C', 'A'] =
      some d.DCA := by
  obtain ⟨w, hp⟩ := parse_gen d hw
  rw [hp]
  simp [mapLookup, bodyEntries]

theorem lkDCB (d : DLFormData) (hw : wellFormed d) :
    mapLookup (parseAAMVARaw (generateAAMVAString d)) ['D', 'C', 'B'] =
      some d.DCB := by
  obtain ⟨w, hp⟩ := parse_gen d hw
  rw [hp]
  simp [mapLookup, bodyEntries]

theorem lkDCD (d : DLFormData) (hw : wellFormed d) :
    mapLookup (parseAAMVARaw (generateAAMVAString d)) ['D', 'C', 'D'] =
      some d.DCD := by
  obtain ⟨w, hp⟩ := parse_gen d hw
  rw [hp]
  simp [mapLookup, bodyEntries]

theorem lkDBA (d : DLFormData) (hw : wellFormed d) :
    mapLookup (parseAAMVARaw (generateAAMVAString d)) ['D', 'B', 'A'] =
      some d.DBA := by
  obtain ⟨w, hp⟩ := parse_gen d hw
  rw [hp]
  simp [mapLookup, bodyEntries]

theorem lkDBB (d : DLFormData) (hw : wellFormed d) :
    mapLookup (parseAAMVARaw (generateAAMVAString d)) ['D', 'B', 'B'] =
      some d.DBB := by
  obtain ⟨w, hp⟩ := parse_gen d hw
  rw [hp]
  simp [mapLookup, bodyEntries]

theorem lkDBC (d : DLFormData) (hw : wellFormed d) :
    mapLookup (parseAAMVARaw (generateAAMVAString d)) ['D', 'B', 'C'] =
      some d.DBC := by
  obtain ⟨w, hp⟩ := parse_gen d hw
  rw [hp]
  simp [mapLookup, bodyEntries]

theorem lkDAY (d : DLFormData) (hw : wellFormed d) :
    mapLookup (parseAAMVARaw (generateAAMVAString d)) ['D', 'A', 'Y'] =
      some d.DAY := by
  obtain ⟨w, hp⟩ := parse_gen d hw
  rw [hp]
  simp [mapLookup, bodyEntries]

theorem lkDAZ (d : DLFormData) (hw : wellFormed d) :
    mapLookup (parseAAMVARaw (generateAAMVAString d)) ['D', 'A', 'Z'] =
      some d.DAZ := by
  obtain ⟨w, hp⟩ := parse_gen d hw
  rw [hp]
  simp [mapLookup, bodyEntries]

theorem lkDAU (d : DLFormData) (hw : wellFormed d) :
    mapLookup (parseAAMVARaw (generateAAMVAString d)) ['D', 'A', 'U'] =
      some d.DAU := by
  obtain ⟨w, hp⟩ := parse_gen d hw
  rw [hp]
  simp [mapLookup, bodyEntries]

theorem lkDAW (d : DLFormData) (hw : wellFormed d) :
    mapLookup (parseAAMVARaw (generateAAMVAString d)) ['D', 'A', 'W'] =
      some d.DAW := by
  obtain ⟨w, hp⟩ := parse_gen d hw
  rw [hp]
  simp [mapLookup, bodyEntries]

theorem lkDAG (d : DLFormData) (hw : wellFormed d) :
    mapLookup (parseAAMVARaw (generateAAMVAString d)) ['D', 'A', 'G'] =
      some d.DAG := by
  obtain ⟨w, hp⟩ := parse_gen d hw
  rw [hp]
  simp [mapLookup, bodyEntries]

theorem lkDAI (d : DLFormData) (hw : wellFormed d) :
    mapLookup (parseAAMVARaw (generateAAMVAString d)) ['D', 'A', 'I'] =
      some d.DAI := by
  obtain ⟨w, hp⟩ := parse_gen d hw
  rw [hp]
  simp [mapLookup, bodyEntries]

theorem lkDAJ (d : DLFormData) (hw : wellFormed d) :
    mapLookup (parseAAMVARaw (generateAAMVAString d)) ['D', 'A', 'J'] =
      some d.DAJ := by
  obtain ⟨w, hp⟩ := parse_gen d hw
  rw [hp]
  simp [mapLookup, bodyEntries]

theorem lkDAK (d : DLFormData) (hw : wellFormed d) :
    mapLookup (parseAAMVARaw (generateAAMVAString d)) ['D', 'A', 'K'] =
      some d.DAK := by
  obtain ⟨w, hp⟩ := parse_gen d hw
  rw [hp]
  simp [mapLookup, bodyEntries]

theorem lkDCF (d : DLFormData) (hw : wellFormed d) :
    mapLookup (parseAAMVARaw (generateAAMVAString d)) ['D', 'C', 'F'] =
      some d.DCF := by
  obtain ⟨w, hp⟩ := parse_gen d hw
  rw [hp]
  simp [mapLookup, bodyEntries]

theorem lkDCG (d : DLFormData) (hw : wellFormed d) :
    mapLookup (parseAAMVARaw (generateAAMVAString d)) ['D', 'C', 'G'] =
      some d.DCG := by
  obtain ⟨w, hp⟩ := parse_gen d hw
  rw [hp]
  simp [mapLookup, bodyEntries]

theorem lkDBD (d : DLFormData) (hw : wellFormed d) :
    mapLookup (parseAAMVARaw (generateAAMVAString d)) ['D', 'B', 'D'] =
      some d.DBD := by
  obtain ⟨w, hp⟩ := parse_gen d hw
  rw [hp]
  simp [mapLookup, bodyEntries]

theorem lkDDA (d : DLFormData) (hw : wellFormed d) :
    mapLookup (parseAAMVARaw (generateAAMVAString d)) ['D', 'D', 'A'] =
      none := by
  obtain ⟨w, hp⟩ := parse_gen d hw
  rw [hp]
  simp [mapLookup, bodyEntries]

theorem lkDDE (d : DLFormData) (hw : wellFormed d) :
    mapLookup (parseAAMVARaw (generateAAMVAString d)) ['D', 'D', 'E'] =
      none := by
  obtain ⟨w, hp⟩ := parse_gen d hw
  rw [hp]
  simp [mapLookup, bodyEntries]

theorem lkDDF (d : DLFormData) (hw : wellFormed d) :
    mapLookup (parseAAMVARaw (generateAAMVAString d)) ['D', 'D', 'F'] =
      none := by
  obtain ⟨w, hp⟩ := parse_gen d hw
  rw [hp]
  simp [mapLookup, bodyEntries]

theorem lkDDG (d : DLFormData) (hw : wellFormed d) :
    mapLookup (parseAAMVARaw (generateAAMVAString d)) ['D', 'D', 'G'] =
      none := by
  obtain ⟨w, hp⟩ := parse_gen d hw
  rw [hp]
  simp [mapLookup, bodyEntries]

/-! ## Behavior of the per-field check -/

theorem checkField_elementId (m : List (Str × Str)) (d : DLFormData)
    (e : ElemEntry) : (checkField m d e).elementId = e.elId := by
  unfold checkField
  rcases mapLookup m e.elId with _ | sv
  · rfl
  · by_cases h : sv = [] <;> simp [h]

theorem checkField_missing (m : List (Str × Str)) (d : DLFormData)
    (e : ElemEntry) (h : mapLookup m e.elId = none) :
    checkField m d e =
      { elementId := e.elId
        description := e.desc
        formValue := if e.get d = [] then "(empty)".toList else e.get d
        scannedValue := "Not Found".toList
        status := VStatus.MISSING_IN_SCAN
        message := none } := by
  unfold checkField
  rw [h]

theorem checkField_present_status (m : List (Str × Str)) (d : DLFormData)
    (e : ElemEntry) {v : Str} (h : mapLookup m e.elId = some v) (hv : v ≠ []) :
    (checkField m d e).status =
      if (if e.elId = ['D', 'A', 'U'] then
            digitsOnly (normalizeVal v) ≠ digitsOnly (normalizeVal (e.get d))
          else normalizeVal v ≠ normalizeVal (e.get d))
      then VStatus.MISMATCH
      else if patFails e v then VStatus.INVALID_FORMAT else VStatus.MATCH := by
  unfold checkField
  rw [h]
  by_cases hdau : e.elId = ['D', 'A', 'U']
  · by_cases hne : digitsOnly (normalizeVal v) ≠ digitsOnly (normalizeVal (e.get d)) <;>
      simp [hv, hdau, hne]
  · by_cases hne : normalizeVal v ≠ normalizeVal (e.get d) <;>
      simp [hv, hdau, hne]

theorem checkField_present_vals (m : List (Str × Str)) (d : DLFormData)
    (e : ElemEntry) {v : Str} (h : mapLookup m e.elId = some v) (hv : v ≠ []) :
    (checkField m d e).scannedValue = v ∧ (checkField m d e).formValue = e.get d := by
  unfold checkField
  rw [h]
  simp [hv]

theorem checkField_self (m : List (Str × Str)) (d : DLFormData) (e : ElemEntry)
    (h : mapLookup m e.elId = some (e.get d)) (hv : e.get d ≠ [])
    (hpat : patFails e (e.get d) = false) :
    (checkField m d e).status = VStatus.MATCH := by
  rw [checkField_present_status m d e h hv]
  simp [hpat]

/-! ## Length of the decimal rendering -/

theorem natToDecAux_length : ∀ (fuel n k : Nat), 1 ≤ k → n < 10 ^ k →
    (natToDecAux fuel n).length ≤ k := by
  intro fuel
  induction fuel with
  | zero => intro n k _ _; simp [natToDecAux]
  | succ fuel ih =>
    intro n k hk hn
    by_cases h : n < 10
    · simp [natToDecAux, h]
      omega
    · have hk2 : 2 ≤ k := by
        by_contra hlt
        push_neg at hlt
        interval_cases k
        · simp [pow_one] at hn
          omega
      have hpow : 10 ^ (k - 1) * 10 = 10 ^ k := by
        rw [← pow_succ]
        congr 1
        omega
      have hdiv : n / 10 < 10 ^ (k - 1) :=
        (Nat.div_lt_iff_lt_mul (by norm_num)).mpr (by omega)
      have := ih (n / 10) (k - 1) (by omega) hdiv
      simp only [natToDecAux, h, if_false, List.length_append, List.length_cons,
        List.length_nil]
      omega

theorem padStart4_length {n : Nat} (h : n ≤ 9999) : (padStart4 n).length = 4 := by
  have h4 : (natToDec n).length ≤ 4 :=
    natToDecAux_length (n + 1) n 4 (by norm_num)
      (by rw [show (10 : Nat) ^ 4 = 10000 from by norm_num]; omega)
  simp only [padStart4, List.length_append, List.length_replicate]
  omega

/-! ## Claim C1 -/

/-- C1 (counterexample): the round-trip claim fails as stated.  For the
concrete well-formed record `sampleA`, the decoder does not recover the
catalog element DDA from the encoder's output (its line is glued to the
header), and the placeholder DDE does not decode to an empty string
(it is absent from the map). -/
theorem C1_counterexample :
    wellFormed sampleA ∧ sampleA.DDA = ['F'] ∧
    mapLookup (parseAAMVARaw (generateAAMVAString sampleA)) ['D', 'D', 'A'] ≠
      some sampleA.DDA ∧
    mapLookup (parseAAMVARaw (generateAAMVAString sampleA)) ['D', 'D', 'E'] ≠
      some [] := by decide

/-- C1 (amended): for every well-formed Attribute Record, decoding the
Encoder's output recovers every catalog element's value unchanged
EXCEPT DDA: no separator precedes the subfile body, so the DDA element
sits on the same physical line as the header and the decoder absorbs it
into a spurious "ANS" entry, leaving DDA absent from the map.  The
three placeholder slots DDE, DDF, DDG are likewise absent from the
decoded map (their 3-character lines are discarded), not decoded as
empty strings. -/
theorem C1_roundtrip_amended (d : DLFormData) (hw : wellFormed d) :
    mapLookup (parseAAMVARaw (generateAAMVAString d)) ['D', 'E', 'B'] = some d.DEB ∧
    mapLookup (parseAAMVARaw (generateAAMVAString d)) ['D', 'A', 'Q'] = some d.DAQ ∧
    mapLookup (parseAAMVARaw (generateAAMVAString d)) ['D', 'C', 'S'] = some d.DCS ∧
    mapLookup (parseAAMVARaw (generateAAMVAString d)) ['D', 'A', 'C'] = some d.DAC ∧
    mapLookup (parseAAMVARaw (generateAAMVAString d)) ['D', 'A', 'D'] = some d.DAD ∧
    mapLookup (parseAAMVARaw (generateAAMVAString d)) ['D', 'C', 'A'] = some d.DCA ∧
    mapLookup (parseAAMVARaw (generateAAMVAString d)) ['D', 'C', 'B'] = some d.DCB ∧
    mapLookup (parseAAMVARaw (generateAAMVAString d)) ['D', 'C', 'D'] = some d.DCD ∧
    mapLookup (parseAAMVARaw (generateAAMVAString d)) ['D', 'B', 'A'] = some d.DBA ∧
    mapLookup (parseAAMVARaw (generateAAMVAString d)) ['D', 'B', 'B'] = some d.DBB ∧
    mapLookup (parseAAMVARaw (generateAAMVAString d)) ['D', 'B', 'C'] = some d.DBC ∧
    mapLookup (parseAAMVARaw (generateAAMVAString d)) ['D', 'A', 'Y'] = some d.DAY ∧
    mapLookup (parseAAMVARaw (generateAAMVAString d)) ['D', 'A', 'Z'] = some d.DAZ ∧
    mapLookup (parseAAMVARaw (generateAAMVAString d)) ['D', 'A', 'U'] = some d.DAU ∧
    mapLookup (parseAAMVARaw (generateAAMVAString d)) ['D', 'A', 'W'] = some d.DAW ∧
    mapLookup (parseAAMVARaw (generateAAMVAString d)) ['D', 'A', 'G'] = some d.DAG ∧
    mapLookup (parseAAMVARaw (generateAAMVAString d)) ['D', 'A', 'I'] = some d.DAI ∧
    mapLookup (parseAAMVARaw (generateAAMVAString d)) ['D', 'A', 'J'] = some d.DAJ ∧
    mapLookup (parseAAMVARaw (generateAAMVAString d)) ['D', 'A', 'K'] = some d.DAK ∧
    mapLookup (parseAAMVARaw (generateAAMVAString d)) ['D', 'C', 'F'] = some d.DCF ∧
    mapLookup (parseAAMVARaw (generateAAMVAString d)) ['D', 'C', 'G'] = some d.DCG ∧
    mapLookup (parseAAMVARaw (generateAAMVAString d)) ['D', 'B', 'D'] = some d.DBD ∧
    mapLookup (parseAAMVARaw (generateAAMVAString d)) ['D', 'D', 'A'] = none ∧
    mapLookup (parseAAMVARaw (generateAAMVAString d)) ['D', 'D', 'E'] = none ∧
    mapLookup (parseAAMVARaw (generateAAMVAString d)) ['D', 'D', 'F'] = none ∧
    mapLookup (parseAAMVARaw (generateAAMVAString d)) ['D', 'D', 'G'] = none :=
  ⟨lkDEB d hw, lkDAQ d hw, lkDCS d hw, lkDAC d hw, lkDAD d hw, lkDCA d hw,
    lkDCB d hw, lkDCD d hw, lkDBA d hw, lkDBB d hw, lkDBC d hw, lkDAY d hw,
    lkDAZ d hw, lkDAU d hw, lkDAW d hw, lkDAG d hw, lkDAI d hw, lkDAJ d hw,
    lkDAK d hw, lkDCF d hw, lkDCG d hw, lkDBD d hw, lkDDA d hw, lkDDE d hw,
    lkDDF d hw, lkDDG d hw⟩

/-- C1 (witness): the amended round-trip theorem applied to the
concrete record `sampleA`. -/
theorem C1_roundtrip_amended_witness :
    wellFormed sampleA ∧
    mapLookup (parseAAMVARaw (generateAAMVAString sampleA)) ['D', 'A', 'Q'] =
      some sampleA.DAQ :=
  ⟨by decide, (C1_roundtrip_amended sampleA (by decide)).2.1⟩

/-! ## Claim C2 -/

theorem gen_contains_ANSI (d : DLFormData) :
    containsSub ['A', 'N', 'S', 'I'] (generateAAMVAString d) = true := rfl

/-- C2 (counterexample): reconciling the Encoder's output against the
record itself does NOT yield MATCH on every catalog field: for the
concrete well-formed, pattern-valid record `sampleA`, the DDA field of
the report (index 8 in catalog order) has status MISSING_IN_SCAN. -/
theorem C2_counterexample :
    wellFormed sampleA ∧ formatValid sampleA ∧
    ((validateBarcode (generateAAMVAString sampleA) sampleA).fields.getD 8
      default).elementId = ['D', 'D', 'A'] ∧
    ((validateBarcode (generateAAMVAString sampleA) sampleA).fields.getD 8
      default).status = VStatus.MISSING_IN_SCAN ∧
    ((validateBarcode (generateAAMVAString sampleA) sampleA).fields.getD 8
      default).status ≠ VStatus.MATCH := by decide

/-- C2 (amended): for every well-formed Attribute Record whose slots
pass their catalog patterns, reconciling the Encoder's output against
the record itself yields a report whose signature flag is true and
where every catalog field has status MATCH EXCEPT DDA, which is
reported MISSING_IN_SCAN because its line is glued to the header and
never decoded. -/
theorem C2_reconcile_amended (d : DLFormData) (hw : wellFormed d)
    (hfv : formatValid d) :
    (validateBarcode (generateAAMVAString d) d).isValidSignature = true ∧
    ∀ f ∈ (validateBarcode (generateAAMVAString d) d).fields,
      (f.elementId ≠ ['D', 'D', 'A'] → f.status = VStatus.MATCH) ∧
      (f.elementId = ['D', 'D', 'A'] → f.status = VStatus.MISSING_IN_SCAN) := by
  obtain ⟨fDAQ, fDBA, fDCS, fDAC, fDBB, fDBD, fDEB, fDAJ, fDAK, fDBC, fDAY,
    fDAZ, fDCG⟩ := hfv
  have hcs := hw
  obtain ⟨hDAJ, hDCG, hIIN, hVer, hDDA, hDEB, hDAQ, hDBA, hDCS, hDAC, hDAD,
    hDBB, hDBD, hDAG, hDAI, hDAK, hDCA, hDBC, hDAU, hDAW, hDAY, hDAZ, hDCB,
    hDCD, hDCF, hsuf⟩ := hcs
  constructor
  · simp [validateBarcode, gen_startsAt, gen_contains_ANSI]
  · have hfields : (validateBarcode (generateAAMVAString d) d).fields =
        ELEMENT_MAP.map (checkField (parseAAMVARaw (generateAAMVAString d)) d) :=
      rfl
    generalize hpm : parseAAMVARaw (generateAAMVAString d) = pm at hfields
    have LDEB : mapLookup pm ['D', 'E', 'B'] = some d.DEB := hpm ▸ lkDEB d hw
    have LDAQ : mapLookup pm ['D', 'A', 'Q'] = some d.DAQ := hpm ▸ lkDAQ d hw
    have LDCS : mapLookup pm ['D', 'C', 'S'] = some d.DCS := hpm ▸ lkDCS d hw
    have LDAC : mapLookup pm ['D', 'A', 'C'] = some d.DAC := hpm ▸ lkDAC d hw
    have LDAD : mapLookup pm ['D', 'A', 'D'] = some d.DAD := hpm ▸ lkDAD d hw
    have LDCA : mapLookup pm ['D', 'C', 'A'] = some d.DCA := hpm ▸ lkDCA d hw
    have LDCB : mapLookup pm ['D', 'C', 'B'] = some d.DCB := hpm ▸ lkDCB d hw
    have LDCD : mapLookup pm ['D', 'C', 'D'] = some d.DCD := hpm ▸ lkDCD d hw
    have LDBA : mapLookup pm ['D', 'B', 'A'] = some d.DBA := hpm ▸ lkDBA d hw
    have LDBB : mapLookup pm ['D', 'B', 'B'] = some d.DBB := hpm ▸ lkDBB d hw
    have LDBC : mapLookup pm ['D', 'B', 'C'] = some d.DBC := hpm ▸ lkDBC d hw
    have LDAY : mapLookup pm ['D', 'A', 'Y'] = some d.DAY := hpm ▸ lkDAY d hw
    have LDAZ : mapLookup pm ['D', 'A', 'Z'] = some d.DAZ := hpm ▸ lkDAZ d hw
    have LDAU : mapLookup pm ['D', 'A', 'U'] = some d.DAU := hpm ▸ lkDAU d hw
    have LDAW : mapLookup pm ['D', 'A', 'W'] = some d.DAW := hpm ▸ lkDAW d hw
    have LDAG : mapLookup pm ['D', 'A', 'G'] = some d.DAG := hpm ▸ lkDAG d hw
    have LDAI : mapLookup pm ['D', 'A', 'I'] = some d.DAI := hpm ▸ lkDAI d hw
    have LDAJ : mapLookup pm ['D', 'A', 'J'] = some d.DAJ := hpm ▸ lkDAJ d hw
    have LDAK : mapLookup pm ['D', 'A', 'K'] = some d.DAK := hpm ▸ lkDAK d hw
    have LDCF : mapLookup pm ['D', 'C', 'F'] = some d.DCF := hpm ▸ lkDCF d hw
    have LDCG : mapLookup pm ['D', 'C', 'G'] = some d.DCG := hpm ▸ lkDCG d hw
    have LDBD : mapLookup pm ['D', 'B', 'D'] = some d.DBD := hpm ▸ lkDBD d hw
    have LDDA : mapLookup pm ['D', 'D', 'A'] = none := hpm ▸ lkDDA d hw
    intro f hf
    rw [hfields] at hf
    simp only [ELEMENT_MAP, List.map_cons, List.map_nil,
      List.mem_cons, List.not_mem_nil, or_false] at hf
    rcases hf with rfl | rfl | rfl | rfl | rfl | rfl | rfl | rfl | rfl | rfl |
      rfl | rfl | rfl | rfl | rfl | rfl | rfl | rfl | rfl | rfl | rfl | rfl | rfl
    case _ =>
      refine ⟨fun _ => checkField_self _ _ _ LDAQ hDAQ.1
        (by simp [patFails, entryDAQ, fDAQ]), fun heq => ?_⟩
      rw [checkField_elementId] at heq
      exact absurd heq (by decide)
    case _ =>
      refine ⟨fun _ => checkField_self _ _ _ LDBA hDBA.1
        (by simp [patFails, fDBA]), fun heq => ?_⟩
      rw [checkField_elementId] at heq
      exact absurd heq (by decide)
    case _ =>
      refine ⟨fun _ => checkField_self _ _ _ LDCS hDCS.1
        (by simp [patFails, fDCS]), fun heq => ?_⟩
      rw [checkField_elementId] at heq
      exact absurd heq (by decide)
    case _ =>
      refine ⟨fun _ => checkField_self _ _ _ LDAC hDAC.1
        (by simp [patFails, fDAC]), fun heq => ?_⟩
      rw [checkField_elementId] at heq
      exact absurd heq (by decide)
    case _ =>
      refine ⟨fun _ => checkField_self _ _ _ LDAD hDAD.1
        (by simp [patFails]), fun heq => ?_⟩
      rw [checkField_elementId] at heq
      exact absurd heq (by decide)
    case _ =>
      refine ⟨fun _ => checkField_self _ _ _ LDBB hDBB.1
        (by simp [patFails, fDBB]), fun heq => ?_⟩
      rw [checkField_elementId] at heq
      exact absurd heq (by decide)
    case _ =>
      refine ⟨fun _ => checkField_self _ _ _ LDBD hDBD.1
        (by simp [patFails, fDBD]), fun heq => ?_⟩
      rw [checkField_elementId] at heq
      exact absurd heq (by decide)
    case _ =>
      refine ⟨fun _ => checkField_self _ _ _ LDEB hDEB.1
        (by simp [patFails, fDEB]), fun heq => ?_⟩
      rw [checkField_elementId] at heq
      exact absurd heq (by decide)
    case _ =>
      refine ⟨fun hne => ?_, fun _ => ?_⟩
      · rw [checkField_elementId] at hne
        exact absurd rfl hne
      · rw [checkField_missing _ _ _ LDDA]
    case _ =>
      refine ⟨fun _ => checkField_self _ _ _ LDAG hDAG.1
        (by simp [patFails]), fun heq => ?_⟩
      rw [checkField_elementId] at heq
      exact absurd heq (by decide)
    case _ =>
      refine ⟨fun _ => checkField_self _ _ _ LDAI hDAI.1
        (by simp [patFails]), fun heq => ?_⟩
      rw [checkField_elementId] at heq
      exact absurd heq (by decide)
    case _ =>
      refine ⟨fun _ => checkField_self _ _ _ LDAJ hDAJ.1
        (by simp [patFails, fDAJ]), fun heq => ?_⟩
      rw [checkField_elementId] at heq
      exact absurd heq (by decide)
    case _ =>
      refine ⟨fun _ => checkField_self _ _ _ LDAK hDAK.1
        (by simp [patFails, fDAK]), fun heq => ?_⟩
      rw [checkField_elementId] at heq
      exact absurd heq (by decide)
    case _ =>
      refine ⟨fun _ => checkField_self _ _ _ LDCA hDCA.1
        (by simp [patFails]), fun heq => ?_⟩
      rw [checkField_elementId] at heq
      exact absurd heq (by decide)
    case _ =>
      refine ⟨fun _ => checkField_self _ _ _ LDBC hDBC.1
        (by simp [patFails, fDBC]), fun heq => ?_⟩
      rw [checkField_elementId] at heq
      exact absurd heq (by decide)
    case _ =>
      refine ⟨fun _ => checkField_self _ _ _ LDAU hDAU.1
        (by simp [patFails]), fun heq => ?_⟩
      rw [checkField_elementId] at heq
      exact absurd heq (by decide)
    case _ =>
      refine ⟨fun _ => checkField_self _ _ _ LDAW hDAW.1
        (by simp [patFails]), fun heq => ?_⟩
      rw [checkField_elementId] at heq
      exact absurd heq (by decide)
    case _ =>
      refine ⟨fun _ => checkField_self _ _ _ LDAY hDAY.1
        (by simp [patFails, fDAY]), fun heq => ?_⟩
      rw [checkField_elementId] at heq
      exact absurd heq (by decide)
    case _ =>
      refine ⟨fun _ => checkField_self _ _ _ LDAZ hDAZ.1
        (by simp [patFails, fDAZ]), fun heq => ?_⟩
      rw [checkField_elementId] at heq
      exact absurd heq (by decide)
    case _ =>
      refine ⟨fun _ => checkField_self _ _ _ LDCB hDCB.1
        (by simp [patFails]), fun heq => ?_⟩
      rw [checkField_elementId] at heq
      exact absurd heq (by decide)
    case _ =>
      refine ⟨fun _ => checkField_self _ _ _ LDCD hDCD.1
        (by simp [patFails]), fun heq => ?_⟩
      rw [checkField_elementId] at heq
      exact absurd heq (by decide)
    case _ =>
      refine ⟨fun _ => checkField_self _ _ _ LDCF hDCF.1
        (by simp [patFails]), fun heq => ?_⟩
      rw [checkField_elementId] at heq
      exact absurd heq (by decide)
    case _ =>
      refine ⟨fun _ => checkField_self _ _ _ LDCG hDCG.1
        (by simp [patFails, fDCG]), fun heq => ?_⟩
      rw [checkField_elementId] at heq
      exact absurd heq (by decide)

/-- C2 (witness): the amended reconciliation theorem applied to the
concrete record `sampleA`. -/
theorem C2_reconcile_amended_witness :
    wellFormed sampleA ∧ formatValid sampleA ∧
    (validateBarcode (generateAAMVAString sampleA) sampleA).isValidSignature =
      true :=
  ⟨by decide, by decide,
    (C2_reconcile_amended sampleA (by decide) (by decide)).1⟩

/-! ## Claim C3 -/

/-- C3 (counterexample): the height comparison is digit-only but does
not normalize leading zeros, so reconciling a reference height
"070 in" against a scanned height "70" yields MISMATCH, not MATCH as
claimed: the digit strings "070" and "70" differ. -/
theorem C3_counterexample :
    sampleC.DAU = "070 in".toList ∧
    mapLookup (parseAAMVARaw rawDAU70) ['D', 'A', 'U'] = some ['7', '0'] ∧
    ((validateBarcode rawDAU70 sampleC).fields.getD 15 default).elementId =
      ['D', 'A', 'U'] ∧
    ((validateBarcode rawDAU70 sampleC).fields.getD 15 default).status =
      VStatus.MISMATCH ∧
    ((validateBarcode rawDAU70 sampleC).fields.getD 15 default).status ≠
      VStatus.MATCH := by decide

/-- C3 (amended): the height element DAU is compared digit-only — all
non-digit characters are stripped from the normalized observed and
reference values — but leading zeros are kept, so the DAU field's
status is MATCH exactly when the two digit strings are equal ("70 in"
vs "70" matches; "070 in" vs "70" mismatches). -/
theorem C3_height_digit_comparison (raw : Str) (d : DLFormData) (v : Str)
    (h : mapLookup (parseAAMVARaw raw) ['D', 'A', 'U'] = some v) (hv : v ≠ []) :
    ((validateBarcode raw d).fields.getD 15 default).status =
      (if digitsOnly (normalizeVal v) ≠ digitsOnly (normalizeVal d.DAU)
       then VStatus.MISMATCH else VStatus.MATCH) := by
  have hidx : (validateBarcode raw d).fields.getD 15 default =
      checkField (parseAAMVARaw raw) d
        ⟨['D', 'A', 'U'], "Height".toList, fun r => r.DAU, none⟩ := rfl
  rw [hidx, checkField_present_status _ _ _ h hv]
  simp [patFails]

/-- C3 (witness): the amended digit-only comparison applied to a
reference "70 in" and a scanned "70", which do match. -/
theorem C3_height_digit_comparison_witness :
    ((validateBarcode rawDAU70 sampleC2).fields.getD 15 default).status =
      VStatus.MATCH := by
  have h := C3_height_digit_comparison rawDAU70 sampleC2 ['7', '0']
    (by decide) (by decide)
  rw [h]
  decide

/-! ## Claim C4 -/

/-- C4: for every Attribute Record (with the spec's fixed-width
jurisdiction slots: a 6-character IIN and a 2-character version, and a
body small enough for the 4-digit field), the 4-digit length field of
the Encoder's output — the 4 characters at offset 27 — equals the
subfile body length plus one, zero-padded to 4 digits, and the total
output length equals 31 plus that length value. -/
theorem C4_length_invariant (d : DLFormData) (h6 : d.IIN.length = 6)
    (h2 : d.Version.length = 2) (hle : (subfileBody d).length + 1 ≤ 9999) :
    ((generateAAMVAString d).drop 27).take 4 =
      padStart4 ((subfileBody d).length + 1) ∧
    (padStart4 ((subfileBody d).length + 1)).length = 4 ∧
    (generateAAMVAString d).length = 31 + ((subfileBody d).length + 1) := by
  have hp31 : padStart4 31 = ['0', '0', '3', '1'] := by decide
  have hX : generateAAMVAString d =
      (['@'] ++ ['\n'] ++ ['\x1e'] ++ ['\r'] ++ ['A', 'N', 'S', 'I', ' ']
        ++ d.IIN ++ d.Version ++ ['0', '0'] ++ ['0', '1'] ++ ['D', 'L']
        ++ padStart4 31)
      ++ (padStart4 ((subfileBody d).length + 1)
        ++ (subfileBody d ++ ['\r'])) := by
    simp [generateAAMVAString, List.append_assoc]
  refine ⟨?_, padStart4_length hle, ?_⟩
  · rw [hX]
    have hXlen : (['@'] ++ ['\n'] ++ ['\x1e'] ++ ['\r'] ++ ['A', 'N', 'S', 'I', ' ']
        ++ d.IIN ++ d.Version ++ ['0', '0'] ++ ['0', '1'] ++ ['D', 'L']
        ++ padStart4 31).length = 27 := by
      simp [List.length_append, h6, h2, hp31]
    rw [show (27 : Nat) = (['@'] ++ ['\n'] ++ ['\x1e'] ++ ['\r']
        ++ ['A', 'N', 'S', 'I', ' '] ++ d.IIN ++ d.Version ++ ['0', '0']
        ++ ['0', '1'] ++ ['D', 'L'] ++ padStart4 31).length from hXlen.symm,
      List.drop_left]
    rw [show (4 : Nat) = (padStart4 ((subfileBody d).length + 1)).length from
      (padStart4_length hle).symm, List.take_left]
  · simp only [generateAAMVAString, List.length_append, h6, h2,
      padStart4_length hle, hp31, List.length_cons, List.length_nil]
    omega

/-- C4 (witness): the length invariant applied to the concrete record
`sampleA`. -/
theorem C4_length_invariant_witness :
    sampleA.IIN.length = 6 ∧ sampleA.Version.length = 2 ∧
    (generateAAMVAString sampleA).length =
      31 + ((subfileBody sampleA).length + 1) :=
  ⟨by decide, by decide,
    (C4_length_invariant sampleA (by decide) (by decide) (by decide)).2.2⟩

/-! ## Claim C5 -/

/-- C5 (counterexample): when a present element's normalized observed
and reference values are EQUAL but its catalog pattern fails, the field
status is INVALID_FORMAT, not MATCH as the claim's "otherwise the
status is MATCH" asserts.  Concretely, a scanned state code
"california" against an identical reference slot yields
INVALID_FORMAT. -/
theorem C5_counterexample :
    mapLookup (parseAAMVARaw rawDAJca) ['D', 'A', 'J'] =
      some "california".toList ∧
    normalizeVal "california".toList = normalizeVal sampleE.DAJ ∧
    ((validateBarcode rawDAJca sampleE).fields.getD 11 default).elementId =
      ['D', 'A', 'J'] ∧
    ((validateBarcode rawDAJca sampleE).fields.getD 11 default).status =
      VStatus.INVALID_FORMAT ∧
    ((validateBarcode rawDAJca sampleE).fields.getD 11 default).status ≠
      VStatus.MATCH := by decide

/-- C5 (amended): for every catalog element present (and nonempty) in
the decoded map, the reported field's status is MISMATCH when the
normalized (for DAU: digit-only) observed and reference values differ —
overriding any INVALID_FORMAT outcome of the pattern check — and
otherwise it is INVALID_FORMAT when the catalog pattern exists and
rejects the observed value, else MATCH. -/
theorem C5_status_priority (raw : Str) (d : DLFormData) (e : ElemEntry)
    (v : Str) (he : e ∈ ELEMENT_MAP)
    (h : mapLookup (parseAAMVARaw raw) e.elId = some v) (hv : v ≠ []) :
    checkField (parseAAMVARaw raw) d e ∈ (validateBarcode raw d).fields ∧
    (checkField (parseAAMVARaw raw) d e).status =
      (if (if e.elId = ['D', 'A', 'U'] then
            digitsOnly (normalizeVal v) ≠ digitsOnly (normalizeVal (e.get d))
          else normalizeVal v ≠ normalizeVal (e.get d))
       then VStatus.MISMATCH
       else if patFails e v then VStatus.INVALID_FORMAT else VStatus.MATCH) :=
  ⟨List.mem_map_of_mem _ he, checkField_present_status _ _ _ h hv⟩

/-- C5 (witness): the status-priority theorem applied to a concrete
scan "@\nDAQ123" against `sampleA`, whose license numbers differ, so
the DAQ field is reported MISMATCH. -/
theorem C5_status_priority_witness :
    checkField (parseAAMVARaw "@\nDAQ123".toList) sampleA entryDAQ ∈
      (validateBarcode "@\nDAQ123".toList sampleA).fields ∧
    (checkField (parseAAMVARaw "@\nDAQ123".toList) sampleA entryDAQ).status =
      VStatus.MISMATCH := by
  have h := C5_status_priority "@\nDAQ123".toList sampleA entryDAQ
    ['1', '2', '3'] (by unfold ELEMENT_MAP; exact List.mem_cons_self _ _)
    (by decide) (by decide)
  exact ⟨h.1, h.2.trans (by decide)⟩

/-! ## Claim C6 -/

/-- C6: the Reconciler reports a valid signature exactly for records
that start with "@" and contain the substring "ANSI"; any input that
does not start with "@" is reported signature-invalid and decodes to an
empty map. -/
theorem C6_signature (raw : Str) (d : DLFormData) :
    (startsAt raw = true → containsSub ['A', 'N', 'S', 'I'] raw = true →
      (validateBarcode raw d).isValidSignature = true) ∧
    (startsAt raw = false →
      (validateBarcode raw d).isValidSignature = false ∧
      parseAAMVARaw raw = []) := by
  constructor
  · intro h1 h2
    simp [validateBarcode, h1, h2]
  · intro h1
    exact ⟨by simp [validateBarcode, h1], by simp [parseAAMVARaw, h1]⟩

/-- C6 (witness): the signature rule applied to the spec's example
header "@\n\x1e\rANSI 636000..." and to an input not starting with
"@". -/
theorem C6_signature_witness :
    startsAt rawSigOk = true ∧
    containsSub ['A', 'N', 'S', 'I'] rawSigOk = true ∧
    (validateBarcode rawSigOk sampleA).isValidSignature = true ∧
    startsAt rawNoAt = false ∧
    (validateBarcode rawNoAt sampleA).isValidSignature = false ∧
    parseAAMVARaw rawNoAt = [] := by
  refine ⟨by decide, by decide,
    (C6_signature rawSigOk sampleA).1 (by decide) (by decide), by decide,
    ?_, ?_⟩
  · exact ((C6_signature rawNoAt sampleA).2 (by decide)).1
  · exact ((C6_signature rawNoAt sampleA).2 (by decide)).2

/-! ## Claim C7 -/

/-- C7: whenever the restrictions (DCB) or endorsements (DCD) slot is
empty or whitespace-only, the serialized subfile body contains the
element with the literal value "NONE" (the whole line "DCBNONE\n" or
"DCDNONE\n" occurs in the body), never an empty segment. -/
theorem C7_default_substitution (d : DLFormData) :
    (trimStr d.DCB = [] →
      (['D', 'C', 'B', 'N', 'O', 'N', 'E', '\n'] <:+: subfileBody d)) ∧
    (trimStr d.DCD = [] →
      (['D', 'C', 'D', 'N', 'O', 'N', 'E', '\n'] <:+: subfileBody d)) := by
  constructor
  · intro h
    have hres : restrictionsOf d = ['N', 'O', 'N', 'E'] := by
      rw [restrictionsOf, if_neg]
      rintro ⟨-, h2⟩
      exact h2 h
    refine ⟨['D', 'L'] ++ elemLine ['D', 'D', 'A'] d.DDA
      ++ elemLine ['D', 'E', 'B'] d.DEB ++ elemLine ['D', 'A', 'Q'] d.DAQ
      ++ elemLine ['D', 'C', 'S'] d.DCS ++ elemLine ['D', 'D', 'E'] []
      ++ elemLine ['D', 'A', 'C'] d.DAC ++ elemLine ['D', 'D', 'F'] []
      ++ elemLine ['D', 'A', 'D'] d.DAD ++ elemLine ['D', 'D', 'G'] []
      ++ elemLine ['D', 'C', 'A'] d.DCA,
      elemLine ['D', 'C', 'D'] (endorsementsOf d)
      ++ elemLine ['D', 'B', 'A'] d.DBA ++ elemLine ['D', 'B', 'B'] d.DBB
      ++ elemLine ['D', 'B', 'C'] d.DBC ++ elemLine ['D', 'A', 'Y'] d.DAY
      ++ elemLine ['D', 'A', 'Z'] d.DAZ
      ++ elemLine ['D', 'A', 'U'] (heightValOf d)
      ++ elemLine ['D', 'A', 'W'] d.DAW ++ elemLine ['D', 'A', 'G'] d.DAG
      ++ elemLine ['D', 'A', 'I'] d.DAI ++ elemLine ['D', 'A', 'J'] d.DAJ
      ++ elemLine ['D', 'A', 'K'] d.DAK ++ elemLine ['D', 'C', 'F'] d.DCF
      ++ elemLine ['D', 'C', 'G'] d.DCG ++ elemLine ['D', 'B', 'D'] d.DBD, ?_⟩
    simp [subfileBody, elemLine, hres, List.append_assoc]
  · intro h
    have hend : endorsementsOf d = ['N', 'O', 'N', 'E'] := by
      rw [endorsementsOf, if_neg]
      rintro ⟨-, h2⟩
      exact h2 h
    refine ⟨['D', 'L'] ++ elemLine ['D', 'D', 'A'] d.DDA
      ++ elemLine ['D', 'E', 'B'] d.DEB ++ elemLine ['D', 'A', 'Q'] d.DAQ
      ++ elemLine ['D', 'C', 'S'] d.DCS ++ elemLine ['D', 'D', 'E'] []
      ++ elemLine ['D', 'A', 'C'] d.DAC ++ elemLine ['D', 'D', 'F'] []
      ++ elemLine ['D', 'A', 'D'] d.DAD ++ elemLine ['D', 'D', 'G'] []
      ++ elemLine ['D', 'C', 'A'] d.DCA
      ++ elemLine ['D', 'C', 'B'] (restrictionsOf d),
      elemLine ['D', 'B', 'A'] d.DBA ++ elemLine ['D', 'B', 'B'] d.DBB
      ++ elemLine ['D', 'B', 'C'] d.DBC ++ elemLine ['D', 'A', 'Y'] d.DAY
      ++ elemLine ['D', 'A', 'Z'] d.DAZ
      ++ elemLine ['D', 'A', 'U'] (heightValOf d)
      ++ elemLine ['D', 'A', 'W'] d.DAW ++ elemLine ['D', 'A', 'G'] d.DAG
      ++ elemLine ['D', 'A', 'I'] d.DAI ++ elemLine ['D', 'A', 'J'] d.DAJ
      ++ elemLine ['D', 'A', 'K'] d.DAK ++ elemLine ['D', 'C', 'F'] d.DCF
      ++ elemLine ['D', 'C', 'G'] d.DCG ++ elemLine ['D', 'B', 'D'] d.DBD, ?_⟩
    simp [subfileBody, elemLine, hend, List.append_assoc]

/-- C7 (witness): the default substitution applied to `sampleB`, whose
restrictions slot is empty and whose endorsements slot is
whitespace-only. -/
theorem C7_default_substitution_witness :
    trimStr sampleB.DCB = [] ∧ trimStr sampleB.DCD = [] ∧
    (['D', 'C', 'B', 'N', 'O', 'N', 'E', '\n'] <:+: subfileBody sampleB) ∧
    (['D', 'C', 'D', 'N', 'O', 'N', 'E', '\n'] <:+: subfileBody sampleB) :=
  ⟨by decide, by decide, (C7_default_substitution sampleB).1 (by decide),
    (C7_default_substitution sampleB).2 (by decide)⟩

/-! ## Claim C8 -/

/-- C8 (counterexample): the Element Catalog does not have 21 entries —
it has 23. -/
theorem C8_counterexample : ELEMENT_MAP.length = 23 ∧
    ELEMENT_MAP.length ≠ 21 := by decide

/-- C8 (amended): the Element Catalog consulted by the Reconciler
contains exactly 23 entries, with pairwise-distinct element
identifiers (one entry per identifier handled by the Reconciler). -/
theorem C8_catalog_size : ELEMENT_MAP.length = 23 ∧
    (ELEMENT_MAP.map (fun e => e.elId)).Nodup := by decide

/-! ## Claim C9 -/

/-- C9: for every input string, every key in the decoder's output map
is exactly three uppercase ASCII letters, and every value is trimmed —
when nonempty, it neither starts nor ends with whitespace. -/
theorem C9_decoded_map_shape (raw : Str) (p : Str × Str)
    (hp : p ∈ parseAAMVARaw raw) :
    p.1.length = 3 ∧ (∀ c ∈ p.1, c.isUpper = true) ∧
    (p.2 ≠ [] → isJsWS (p.2.headD 'A') = false ∧
      isJsWS (p.2.getLastD 'A') = false) := by
  unfold parseAAMVARaw at hp
  by_cases hs : startsAt raw
  case neg =>
    rw [if_neg hs] at hp
    simp at hp
  case pos =>
    rw [if_pos hs] at hp
    obtain ⟨line, hline, hpl⟩ := List.mem_filterMap.mp hp
    by_cases hlen : (stripTag (trimStr line)).length < 4
    · unfold parseLine at hpl
      rw [if_pos hlen] at hpl
      exact absurd hpl (by simp)
    · unfold parseLine at hpl
      rw [if_neg hlen] at hpl
      rcases hts : stripTag (trimStr line) with _ | ⟨a, rest1⟩
      · rw [hts] at hpl
        simp at hpl
      · rcases rest1 with _ | ⟨b, rest2⟩
        · rw [hts] at hpl
          simp at hpl
        · rcases rest2 with _ | ⟨c, rest⟩
          · rw [hts] at hpl
            simp at hpl
          · rw [hts] at hpl
            dsimp only at hpl
            by_cases hup : (a.isUpper && b.isUpper && c.isUpper) = true
            · rw [if_pos hup] at hpl
              obtain rfl : ([a, b, c], trimStr rest) = p := by
                simpa using hpl
              simp only [Bool.and_eq_true] at hup
              obtain ⟨⟨ha, hb⟩, hc⟩ := hup
              refine ⟨rfl, ?_, ?_⟩
              · intro x hx
                simp only [List.mem_cons, List.not_mem_nil, or_false] at hx
                rcases hx with rfl | rfl | rfl
                exacts [ha, hb, hc]
              · intro hne
                exact ⟨trimStr_headD hne, trimStr_getLastD hne⟩
            · rw [if_neg hup] at hpl
              exact absurd hpl (by simp)

/-- C9 (witness): the map-shape invariant applied to a concrete scan
whose value carries surrounding whitespace ("@\nDAQ 123 "), which the
decoder trims. -/
theorem C9_decoded_map_shape_witness :
    (['D', 'A', 'Q'], ['1', '2', '3']) ∈ parseAAMVARaw rawPadded ∧
    (['D', 'A', 'Q'] : Str).length = 3 ∧
    (∀ c ∈ (['D', 'A', 'Q'] : Str), c.isUpper = true) ∧
    isJsWS ((['1', '2', '3'] : Str).headD 'A') = false := by
  have h := C9_decoded_map_shape rawPadded (['D', 'A', 'Q'], ['1', '2', '3'])
    (by decide)
  exact ⟨by decide, h.1, h.2.1, (h.2.2 (by decide)).1⟩

/-! ## Claim C10 -/

/-- C10: whenever a catalog element is absent from the decoded map, the
Reconciler's report contains a field for it with status
MISSING_IN_SCAN, the sentinel scanned value "Not Found", and the
reference slot's value as form value — or the literal "(empty)" when
that slot is blank. -/
theorem C10_missing_field (raw : Str) (d : DLFormData) (e : ElemEntry)
    (he : e ∈ ELEMENT_MAP)
    (h : mapLookup (parseAAMVARaw raw) e.elId = none) :
    checkField (parseAAMVARaw raw) d e ∈ (validateBarcode raw d).fields ∧
    (checkField (parseAAMVARaw raw) d e).status = VStatus.MISSING_IN_SCAN ∧
    (checkField (parseAAMVARaw raw) d e).scannedValue = "Not Found".toList ∧
    (checkField (parseAAMVARaw raw) d e).formValue =
      (if e.get d = [] then "(empty)".toList else e.get d) := by
  refine ⟨List.mem_map_of_mem _ he, ?_, ?_, ?_⟩ <;>
    rw [checkField_missing _ _ _ h]

/-- C10 (witness): the missing-field rule applied to the scan "@"
(whose decoded map is empty) and the DAQ catalog entry, against
`sampleA`. -/
theorem C10_missing_field_witness :
    mapLookup (parseAAMVARaw rawAtOnly) entryDAQ.elId = none ∧
    (checkField (parseAAMVARaw rawAtOnly) sampleA entryDAQ).status =
      VStatus.MISSING_IN_SCAN ∧
    (checkField (parseAAMVARaw rawAtOnly) sampleA entryDAQ).scannedValue =
      "Not Found".toList ∧
    (checkField (parseAAMVARaw rawAtOnly) sampleA entryDAQ).formValue =
      sampleA.DAQ := by
  have h := C10_missing_field rawAtOnly sampleA entryDAQ
    (by unfold ELEMENT_MAP; exact List.mem_cons_self _ _) (by decide)
  exact ⟨by decide, h.2.1, h.2.2.1, h.2.2.2.trans (by decide)⟩
